import Mathlib

/-
  Verification development for the Waste Walk / Action Plan tracker
  (Flask application: app/routes.py, app/models.py, app/forms.py).

  The web handlers are shallowly embedded as pure functions over an explicit
  database state.  Out-of-scope collaborators (the relational store's
  autoincrement ids and default timestamps, the PDF renderer's styling
  constants, the random token source, the filesystem and the image decoder)
  are modelled at their interfaces: randomness and clock values are passed in
  as parameters, the filesystem is a function from paths to existence, and
  PDF "elements" keep the data that flows into them while eliding colors,
  paddings and fonts.
-/

namespace WasteWalk

/-! ## Filename handling (app/forms.py `allowed_file`, app/routes.py `save_picture`) -/

/-- Lowercasing of a character list, modelling Python's `str.lower()`. -/
def lowerChars (cs : List Char) : List Char := cs.map Char.toLower

/-- Python's `'.' in filename`. -/
def hasDot (cs : List Char) : Bool := cs.any (fun c => c == '.')

/-- The characters after the last `'.'` of a list, i.e. Python's
`filename.rsplit('.', 1)[1]` when a dot is present. -/
def afterLastDot (cs : List Char) : List Char :=
  (cs.reverse.takeWhile (fun c => c != '.')).reverse

/-- forms.py line 26: the accepted extension set, lower-case. -/
def ALLOWED_EXTENSIONS : List (List Char) :=
  [String.toList "png", String.toList "jpg", String.toList "jpeg",
   String.toList "gif", String.toList "bmp", String.toList "webp"]

/-- forms.py lines 25-28:
`'.' in filename and filename.rsplit('.', 1)[1].lower() in ALLOWED_EXTENSIONS`. -/
def allowed_file (filename : String) : Bool :=
  hasDot filename.toList
    && ALLOWED_EXTENSIONS.contains (lowerChars (afterLastDot filename.toList))

/-- The basename part after the last `'/'` (POSIX `os.path`, `sep='/'`,
no `altsep`), as used inside `os.path.splitext`. -/
def basenameChars (cs : List Char) : List Char :=
  (cs.reverse.takeWhile (fun c => c != '/')).reverse

/-- The part of the basename strictly before its last `'.'`. -/
def beforeLastDot (cs : List Char) : List Char :=
  ((cs.reverse.dropWhile (fun c => c != '.')).drop 1).reverse

/-- CPython `os.path.splitext` extension condition: the last dot lies in the
basename and some character of the basename before that dot is not a dot
(leading dots never start an extension). -/
def extQualifies (cs : List Char) : Bool :=
  hasDot (basenameChars cs)
    && (beforeLastDot (basenameChars cs)).any (fun c => c != '.')

/-- The extension returned by `os.path.splitext(p)[1]` (POSIX rules):
`'.' ++ <chars after the last dot>` when `extQualifies`, else empty. -/
def splitext_ext (cs : List Char) : List Char :=
  if extQualifies cs then '.' :: afterLastDot (basenameChars cs) else []

/-- routes.py lines 32-52 `save_picture`, at the filename level:
`random_hex = secrets.token_hex(8)` is passed in as `random_hex` (the token
source is an external collaborator; `token_hex(8)` yields 16 hex characters);
`_, f_ext = os.path.splitext(form_picture.filename)`;
`picture_fn = random_hex + f_ext`.  The resize-and-save of the decoded image
is a filesystem effect outside the returned value. -/
def save_picture_fn (random_hex : String) (filename : String) : String :=
  random_hex ++ String.mk (splitext_ext filename.toList)

/-- Modelled from the claim text, for comparison with `allowed_file`: the
substring after the last `'.'`, if any, found by recursion (a name with no
`'.'` yields `none` and is rejected). -/
def extAfterLastDotSpec : List Char → Option (List Char)
  | [] => none
  | c :: cs =>
    match extAfterLastDotSpec cs with
    | some e => some e
    | none => if c = '.' then some cs else none

/-- Spec-side acceptance predicate written from the claim's words: accept iff
the substring after the last dot is, case-insensitively, an allowed extension. -/
def acceptSpecC5 (filename : String) : Bool :=
  match extAfterLastDotSpec filename.toList with
  | none => false
  | some e => ALLOWED_EXTENSIONS.contains (lowerChars e)

/-! ### Facts about the filename functions -/

theorem takeWhile_append_all {p : Char → Bool} (l1 l2 : List Char) (h : ∀ x ∈ l1, p x = true) :
    (l1 ++ l2).takeWhile p = l1 ++ l2.takeWhile p := by
  induction l1 with
  | nil => simp
  | cons a l ih =>
    have ha := h a (List.mem_cons_self a l)
    simp only [List.cons_append, List.takeWhile_cons, ha, if_true]
    rw [ih (fun x hx => h x (List.mem_cons_of_mem a hx))]

theorem takeWhile_append_stop {p : Char → Bool} (l1 l2 : List Char)
    (h : ¬ ∀ x ∈ l1, p x = true) :
    (l1 ++ l2).takeWhile p = l1.takeWhile p := by
  induction l1 with
  | nil => exact absurd (by simp) h
  | cons a l ih =>
    by_cases ha : p a = true
    · have : ¬ ∀ x ∈ l, p x = true := by
        intro hall
        exact h (by
          intro x hx
          rcases List.mem_cons.mp hx with rfl | hx'
          · exact ha
          · exact hall x hx')
      simp only [List.cons_append, List.takeWhile_cons, ha, if_true]
      rw [ih this]
    · simp only [List.cons_append, List.takeWhile_cons, ha]
      simp [ha]

theorem hasDot_cons (c : Char) (cs : List Char) :
    hasDot (c :: cs) = ((c == '.') || hasDot cs) := by
  simp [hasDot]

theorem afterLastDot_cons_of_dot (c : Char) (cs : List Char) (h : hasDot cs = true) :
    afterLastDot (c :: cs) = afterLastDot cs := by
  have hx : ¬ ∀ x ∈ cs.reverse, (x != '.') = true := by
    simp only [hasDot, List.any_eq_true, beq_iff_eq] at h
    obtain ⟨x, hx, rfl⟩ := h
    intro hall
    have := hall '.' (List.mem_reverse.mpr hx)
    simp at this
  simp only [afterLastDot, List.reverse_cons]
  rw [takeWhile_append_stop _ _ hx]

theorem afterLastDot_cons_of_no_dot (c : Char) (cs : List Char) (h : hasDot cs = false) :
    afterLastDot (c :: cs) = if c = '.' then cs else c :: cs := by
  have hall : ∀ x ∈ cs.reverse, (x != '.') = true := by
    intro x hx
    simp only [hasDot, List.any_eq_false, beq_iff_eq] at h
    have := h x (List.mem_reverse.mp hx)
    simpa [bne_iff_ne] using this
  simp only [afterLastDot, List.reverse_cons]
  rw [takeWhile_append_all _ _ hall]
  by_cases hc : c = '.'
  · subst hc
    simp [List.takeWhile]
  · have hcb : (c != '.') = true := by simp [bne_iff_ne, hc]
    simp [List.takeWhile, hcb, hc]

/-- `extAfterLastDotSpec` agrees with the `rsplit`-based computation. -/
theorem extAfterLastDotSpec_eq (cs : List Char) :
    extAfterLastDotSpec cs = if hasDot cs then some (afterLastDot cs) else none := by
  induction cs with
  | nil => simp [extAfterLastDotSpec, hasDot]
  | cons c cs ih =>
    by_cases h : hasDot cs = true
    · simp only [extAfterLastDotSpec, ih, h, if_true, hasDot_cons, Bool.or_true,
        afterLastDot_cons_of_dot c cs h]
    · have h' : hasDot cs = false := by simpa using h
      simp only [extAfterLastDotSpec, ih, h', if_false, hasDot_cons, Bool.or_false,
        afterLastDot_cons_of_no_dot c cs h']
      by_cases hc : c = '.'
      · subst hc; simp
      · simp [hc, beq_iff_eq]

/-! ## Data model (app/models.py) -/

/-- Calendar date, the value produced by
`datetime.strptime(s, '%Y-%m-%d').date()`. -/
structure Date where
  year : Nat
  month : Nat
  day : Nat
deriving DecidableEq

/-- models.py `User`: id, unique username, password hash, role. -/
structure User where
  id : Nat
  username : String
  password : String
  role : String
deriving DecidableEq

/-- models.py `Post`.  Nullable columns are `Option`s; `user_id` is the
author's foreign key (the `author` back-reference).  The store-defaulted
`date_created` (utcnow) is passed in at creation. -/
structure Post where
  id : Nat
  post_type : String
  problem : String
  cause : String
  corrective_action : String
  image_file : Option String
  image_problem : Option String
  image_corrective : Option String
  responsible : String
  area : Option String
  project : Option String
  date_realization : Date
  date_created : Date
  audit_date : Option Date
  audit_type : Option String
  status : String
  user_id : Nat
deriving DecidableEq

/-- models.py `Comment`. -/
structure Comment where
  id : Nat
  content : String
  date_posted : Date
  user_id : Nat
  post_id : Nat
deriving DecidableEq

/-- models.py `ActivityLog`.  The store-assigned autoincrement id and the
utcnow timestamp are storage-managed defaults and are elided. -/
structure ActivityLog where
  user_id : Option Nat
  action : String
  target_type : String
  target_id : Option Nat
  details : Option String
deriving DecidableEq

/-- The relational store: one list per table. -/
structure DB where
  users : List User
  posts : List Post
  comments : List Comment
  activity_log : List ActivityLog
deriving DecidableEq

/-! ## Store access by primary key (`Model.query.get`, row update, row delete) -/

/-- `Model.query.get(k)` / `get_or_404(k)`: first row whose key is `k`. -/
def getById {α : Type} (key : α → Nat) (l : List α) (k : Nat) : Option α :=
  l.find? (fun x => key x == k)

/-- ORM mutation of the row fetched by primary key: apply `f` to the first
row whose key is `k`, leave every other row as it is. -/
def updateById {α : Type} (key : α → Nat) (l : List α) (k : Nat) (f : α → α) : List α :=
  match l with
  | [] => []
  | x :: xs => if key x == k then f x :: xs else x :: updateById key xs k f

/-- `db.session.delete` of the row fetched by primary key. -/
def deleteById {α : Type} (key : α → Nat) (l : List α) (k : Nat) : List α :=
  match l with
  | [] => []
  | x :: xs => if key x == k then xs else x :: deleteById key xs k

theorem getById_decomp {α : Type} (key : α → Nat) (l : List α) (k : Nat) (a : α) (f : α → α)
    (h : getById key l k = some a) :
    ∃ pre suf, l = pre ++ a :: suf
      ∧ updateById key l k f = pre ++ f a :: suf
      ∧ deleteById key l k = pre ++ suf := by
  induction l with
  | nil => simp [getById, List.find?] at h
  | cons x xs ih =>
    by_cases hx : (key x == k) = true
    · simp only [getById, List.find?, hx] at h
      obtain rfl : x = a := by injection h
      exact ⟨[], xs, rfl, by simp [updateById, hx], by simp [deleteById, hx]⟩
    · have hx' : (key x == k) = false := by simpa using hx
      simp only [getById, List.find?, hx'] at h
      obtain ⟨pre, suf, h1, h2, h3⟩ := ih h
      refine ⟨x :: pre, suf, by simp [h1], ?_, ?_⟩
      · simp [updateById, hx', h2]
      · simp [deleteById, hx', h3]

theorem getById_key {α : Type} (key : α → Nat) (l : List α) (k : Nat) (a : α)
    (h : getById key l k = some a) : key a = k := by
  have := List.find?_some h
  simpa using this

theorem mem_updateById {α : Type} (key : α → Nat) (l : List α) (k : Nat) (f : α → α)
    (x : α) (hx : x ∈ updateById key l k f) : x ∈ l ∨ ∃ y, y ∈ l ∧ x = f y := by
  induction l with
  | nil => simp [updateById] at hx
  | cons a as ih =>
    by_cases ha : (key a == k) = true
    · simp only [updateById, ha, if_true] at hx
      rcases List.mem_cons.mp hx with rfl | hx'
      · exact Or.inr ⟨a, List.mem_cons_self a as, rfl⟩
      · exact Or.inl (List.mem_cons_of_mem a hx')
    · simp only [updateById, ha, if_false] at hx
      rcases List.mem_cons.mp hx with rfl | hx'
      · exact Or.inl (List.mem_cons_self x as)
      · rcases ih hx' with h | ⟨y, hy, rfl⟩
        · exact Or.inl (List.mem_cons_of_mem a h)
        · exact Or.inr ⟨y, List.mem_cons_of_mem a hy, rfl⟩

theorem mem_deleteById {α : Type} (key : α → Nat) (l : List α) (k : Nat)
    (x : α) (hx : x ∈ deleteById key l k) : x ∈ l := by
  induction l with
  | nil => simp [deleteById] at hx
  | cons a as ih =>
    by_cases ha : (key a == k) = true
    · simp only [deleteById, ha, if_true] at hx
      exact List.mem_cons_of_mem a hx
    · simp only [deleteById, ha, if_false] at hx
      rcases List.mem_cons.mp hx with rfl | hx'
      · exact List.mem_cons_self x as
      · exact List.mem_cons_of_mem a (ih hx')

theorem map_updateById {α β : Type} (key : α → Nat) (g : α → β) (l : List α) (k : Nat)
    (f : α → α) (h : ∀ y, g (f y) = g y) :
    (updateById key l k f).map g = l.map g := by
  induction l with
  | nil => rfl
  | cons a as ih =>
    by_cases ha : (key a == k) = true
    · simp [updateById, ha, h a]
    · simp only [updateById, ha, if_false]
      simp [ih]

theorem mem_filter_subset {α : Type} (p : α → Bool) (l : List α)
    (x : α) (hx : x ∈ l.filter p) : x ∈ l :=
  (List.mem_filter.mp hx).1

/-! ## Dates, request plumbing and shared helpers (app/routes.py) -/

/-- Split a character list on `'-'`. -/
def splitOnDash : List Char → List (List Char)
  | [] => [[]]
  | c :: cs =>
    match splitOnDash cs with
    | [] => [[]]
    | g :: gs => if c = '-' then [] :: g :: gs else (c :: g) :: gs

/-- Non-empty all-digit character list to its decimal value. -/
def digitsToNat (cs : List Char) : Option Nat :=
  if cs ≠ [] ∧ cs.all Char.isDigit then
    some (cs.foldl (fun n c => n * 10 + (c.toNat - 48)) 0)
  else none

/-- `datetime.strptime(s, '%Y-%m-%d')`, at the interface level: three
dash-separated decimal components with the month and day in calendar range;
a failing parse raises `ValueError` (modelled as `none`, which the handlers
turn into an unhandled 500). -/
def parseDateYMD (s : String) : Option Date :=
  match splitOnDash s.toList with
  | [ys, ms, ds] =>
    match digitsToNat ys, digitsToNat ms, digitsToNat ds with
    | some y, some m, some d =>
      if 1 ≤ m ∧ m ≤ 12 ∧ 1 ≤ d ∧ d ≤ 31 then some ⟨y, m, d⟩ else none
    | _, _, _ => none
  | _ => none

/-- The `audit_date` pattern used by `new_post` and `edit_post`:
`audit_date = None; if form.audit_date.data: audit_date = strptime(...)`. -/
def parseOptionalDate (s : String) : Except String (Option Date) :=
  if s = "" then Except.ok none
  else
    match parseDateYMD s with
    | some d => Except.ok (some d)
    | none => Except.error "ValueError"

/-- Python truthiness of a nullable string column (`None` and `''` falsy). -/
def truthyOpt : Option String → Bool
  | none => false
  | some s => s != ""

/-- `x or None` on a form string. -/
def orNone (s : String) : Option String := if s = "" then none else some s

/-- Value of a nullable string column where the code has checked truthiness. -/
def optStr (o : Option String) : String := o.getD ""

/-- The image-field update pattern of `new_post`/`edit_post`:
`if form.image_x.data and hasattr(..., 'filename') and ...filename:
post.image_x = save_picture(...)` — keep the old value unless a file with a
non-empty filename was attached. -/
def updImage (old : Option String) (upload : Option String) (hex : String) : Option String :=
  match upload with
  | none => old
  | some fn => if fn = "" then old else some (save_picture_fn hex fn)

/-- routes.py lines 57-65 `roles_required`: abort(403) when
`current_user.role not in roles`. -/
def rolesRequired (roles : List String) (cu : User) : Bool :=
  roles.any (fun r => cu.role == r)

/-- `post.author.username` via the user table (FK integrity makes the lookup
total in the running application). -/
def usernameOf (users : List User) (uid : Nat) : String :=
  match getById User.id users uid with
  | some u => u.username
  | none => ""

/-- routes.py lines 19-30 `log_activity`: append one ActivityLog row;
`user_id` is the actor's id when authenticated. -/
def log_activity (db : DB) (cu : Option User) (action target_type : String)
    (target_id : Option Nat) (details : Option String) : DB :=
  { db with activity_log := db.activity_log
      ++ [{ user_id := cu.map User.id, action := action, target_type := target_type,
            target_id := target_id, details := details }] }

/-- Autoincrement primary key assigned by the store at insert. -/
def nextPostId (db : DB) : Nat :=
  db.posts.foldl (fun m p => max m p.id) 0 + 1

/-- PDF output is abstracted to its element list (claim-relevant data only;
styling is renderer configuration). -/
inductive Element where
  | tbl (tag : String) (rows : List (List String))
  | par (text : String)
  | spacer (w h : Nat)
  | pageBreak
  | imgTable (cells : List (String × String))
deriving DecidableEq

/-- What a handler returns to Flask. -/
inductive Response where
  | html (template : String)
  | redirect (endpoint : String)
  | abort (code : Nat)
  | pdf (elements : List Element)
deriving DecidableEq

/-- One `flash(message, category)` call. -/
structure Flash where
  message : String
  category : String
deriving DecidableEq

/-- Result of one request: the store afterwards, the HTTP-level response and
the flashed messages. -/
structure Outcome where
  db : DB
  response : Response
  flashes : List Flash
deriving DecidableEq

/-! ## The post form (app/forms.py `PostForm`) -/

/-- The fields of `PostForm`; file fields carry the uploaded filename when a
file is attached. -/
structure PostFormData where
  post_type : String
  problem : String
  corrective_action : String
  image_problem : Option String
  image_corrective : Option String
  responsible : String
  project_area : String
  date_realization : String
  audit_date : String
  audit_type : String
deriving DecidableEq

/-- `post_type` SelectField choices (submitted values). -/
def POST_TYPE_CHOICES : List String :=
  ["Waste Walk", "Quality", "Safety & Environmental, Health", "5S"]

/-- `audit_type` SelectField choices (submitted values, '' allowed). -/
def AUDIT_TYPE_CHOICES : List String :=
  ["", "Internal", "External", "Scheduled", "Random", "Follow-up"]

/-- `validate_image_problem` / `validate_image_corrective`: when a file with
a non-empty filename is attached, its name must pass `allowed_file`. -/
def imageFieldOk : Option String → Bool
  | none => true
  | some fn => fn == "" || allowed_file fn

/-- `form.validate_on_submit()` for `PostForm`: DataRequired text fields
non-empty, select fields among their choices, image names allowed. -/
def postFormValidates (f : PostFormData) : Bool :=
  POST_TYPE_CHOICES.contains f.post_type
    && f.problem != "" && f.corrective_action != "" && f.responsible != ""
    && f.date_realization != ""
    && AUDIT_TYPE_CHOICES.contains f.audit_type
    && imageFieldOk f.image_problem && imageFieldOk f.image_corrective

/-- A POST request to `new_post`/`edit_post`: the `PostForm` fields plus
whatever extra raw fields the payload carries.  `PostForm` has no status
field, so a `status` value in the payload is never read by the form. -/
structure PostRequest where
  form : PostFormData
  payload_status : Option String
deriving DecidableEq

/-! ## Post lifecycle handlers (app/routes.py) -/

/-- routes.py lines 128-169 `new_post` (POST path).  `hexa`/`hexb` are the
random tokens `save_picture` would draw for the two uploads; `now` is the
store's utcnow default for `date_created`.  Status is always `'Open'` and
`cause` the empty string; the form has no status field. -/
def new_post (db : DB) (cu : User) (req : PostRequest) (hexa hexb : String)
    (now : Date) : Outcome :=
  if !(rolesRequired ["admin", "publisher"] cu) then ⟨db, Response.abort 403, []⟩ else
  if postFormValidates req.form then
    match parseDateYMD req.form.date_realization with
    | none => ⟨db, Response.abort 500, []⟩
    | some date_realization =>
      match parseOptionalDate req.form.audit_date with
      | Except.error _ => ⟨db, Response.abort 500, []⟩
      | Except.ok audit_date =>
        let post : Post :=
          { id := nextPostId db
            post_type := req.form.post_type
            problem := req.form.problem
            cause := ""
            corrective_action := req.form.corrective_action
            image_file := some "default.jpg"
            image_problem := updImage none req.form.image_problem hexa
            image_corrective := updImage none req.form.image_corrective hexb
            responsible := req.form.responsible
            area := orNone req.form.project_area
            project := none
            date_realization := date_realization
            date_created := now
            audit_date := audit_date
            audit_type := orNone req.form.audit_type
            status := "Open"
            user_id := cu.id }
        let db1 : DB := { db with posts := db.posts ++ [post] }
        let db2 := log_activity db1 (some cu) "created" "post" (some post.id)
          (some ("Created " ++ post.post_type ++ " post: " ++ post.problem.take 50))
        ⟨db2, Response.redirect "home", [⟨"Your post has been created!", "success"⟩]⟩
  else ⟨db, Response.html "create_post.html", []⟩

/-- The field assignments of `edit_post` (routes.py lines 197-214) applied
to the fetched post: every form field is written; status and cause are not
assigned (status is managed through `complete_post`, cause is not a form
field). -/
def editUpd (f : PostFormData) (hexa hexb : String) (dr : Date) (ad : Option Date) :
    Post → Post := fun p =>
  { p with
    post_type := f.post_type
    problem := f.problem
    corrective_action := f.corrective_action
    responsible := f.responsible
    area := orNone f.project_area
    date_realization := dr
    audit_date := ad
    audit_type := orNone f.audit_type
    image_problem := updImage p.image_problem f.image_problem hexa
    image_corrective := updImage p.image_corrective f.image_corrective hexb }

/-- routes.py lines 178-230 `edit_post` (POST path). -/
def edit_post (db : DB) (cu : User) (post_id : Nat) (req : PostRequest)
    (hexa hexb : String) : Outcome :=
  if !(rolesRequired ["admin", "publisher"] cu) then ⟨db, Response.abort 403, []⟩ else
  match getById Post.id db.posts post_id with
  | none => ⟨db, Response.abort 404, []⟩
  | some post =>
    if post.user_id != cu.id && cu.role != "admin" then ⟨db, Response.abort 403, []⟩
    else if postFormValidates req.form then
      match parseDateYMD req.form.date_realization with
      | none => ⟨db, Response.abort 500, []⟩
      | some date_realization =>
        match parseOptionalDate req.form.audit_date with
        | Except.error _ => ⟨db, Response.abort 500, []⟩
        | Except.ok audit_date =>
          let db1 : DB := { db with
            posts := updateById Post.id db.posts post_id
              (editUpd req.form hexa hexb date_realization audit_date) }
          let db2 := log_activity db1 (some cu) "updated" "post" (some post.id)
            (some ("Updated " ++ req.form.post_type ++ " post: " ++ req.form.problem.take 50))
          ⟨db2, Response.redirect "home", [⟨"Your post has been updated!", "success"⟩]⟩
    else ⟨db, Response.html "create_post.html", []⟩

/-- routes.py lines 233-248 `delete_post`: ownership-or-admin; the log entry
is written before the delete; comments cascade with the post. -/
def delete_post (db : DB) (cu : User) (post_id : Nat) : Outcome :=
  if !(rolesRequired ["admin", "publisher"] cu) then ⟨db, Response.abort 403, []⟩ else
  match getById Post.id db.posts post_id with
  | none => ⟨db, Response.abort 404, []⟩
  | some post =>
    if post.user_id != cu.id && cu.role != "admin" then ⟨db, Response.abort 403, []⟩
    else
      let db1 := log_activity db (some cu) "deleted" "post" (some post_id)
        (some ("Deleted post: " ++ post.problem.take 50))
      let db2 : DB := { db1 with
        posts := deleteById Post.id db1.posts post_id
        comments := db1.comments.filter (fun c => !(c.post_id == post_id)) }
      ⟨db2, Response.redirect "home", [⟨"Your post has been deleted!", "success"⟩]⟩

/-- routes.py lines 251-271 `complete_post`: ownership-or-admin; warns and
changes nothing when `image_corrective` is falsy; otherwise sets status
`'Completed'` and logs `completed`. -/
def complete_post (db : DB) (cu : User) (post_id : Nat) : Outcome :=
  if !(rolesRequired ["admin", "publisher"] cu) then ⟨db, Response.abort 403, []⟩ else
  match getById Post.id db.posts post_id with
  | none => ⟨db, Response.abort 404, []⟩
  | some post =>
    if post.user_id != cu.id && cu.role != "admin" then ⟨db, Response.abort 403, []⟩
    else if !(truthyOpt post.image_corrective) then
      ⟨db, Response.redirect "post_detail",
        [⟨"Cannot complete post without uploading a corrective action image. Please edit the post and upload an image.", "warning"⟩]⟩
    else
      let db1 : DB := { db with
        posts := updateById Post.id db.posts post_id (fun p => { p with status := "Completed" }) }
      let db2 := log_activity db1 (some cu) "completed" "post" (some post.id)
        (some ("Completed post: " ++ post.problem.take 50))
      ⟨db2, Response.redirect "post_detail", [⟨"Post has been marked as Completed!", "success"⟩]⟩

/-- routes.py lines 274-289 `reopen_post`: ownership-or-admin; sets status
`'Open'` unconditionally and logs `reopened`. -/
def reopen_post (db : DB) (cu : User) (post_id : Nat) : Outcome :=
  if !(rolesRequired ["admin", "publisher"] cu) then ⟨db, Response.abort 403, []⟩ else
  match getById Post.id db.posts post_id with
  | none => ⟨db, Response.abort 404, []⟩
  | some post =>
    if post.user_id != cu.id && cu.role != "admin" then ⟨db, Response.abort 403, []⟩
    else
      let db1 : DB := { db with
        posts := updateById Post.id db.posts post_id (fun p => { p with status := "Open" }) }
      let db2 := log_activity db1 (some cu) "reopened" "post" (some post.id)
        (some ("Reopened post: " ++ post.problem.take 50))
      ⟨db2, Response.redirect "post_detail", [⟨"Post has been reopened.", "info"⟩]⟩

/-- routes.py lines 406-420 `delete_comment`: login required; comment author
or admin; the log entry (target_type `'comment'`) is written before the
delete. -/
def delete_comment (db : DB) (cu : User) (comment_id : Nat) : Outcome :=
  match getById Comment.id db.comments comment_id with
  | none => ⟨db, Response.abort 404, []⟩
  | some comment =>
    if comment.user_id != cu.id && cu.role != "admin" then ⟨db, Response.abort 403, []⟩
    else
      let db1 := log_activity db (some cu) "deleted" "comment" (some comment_id)
        (some ("Comment deleted from post " ++ toString comment.post_id))
      let db2 : DB := { db1 with comments := deleteById Comment.id db1.comments comment_id }
      ⟨db2, Response.redirect "post_detail", [⟨"Comment has been deleted.", "success"⟩]⟩

/-- routes.py lines 368-384 `delete_user`: admin only; an admin deleting
their own id is turned away with a flash and no state change. -/
def delete_user (db : DB) (cu : User) (user_id : Nat) : Outcome :=
  if !(rolesRequired ["admin"] cu) then ⟨db, Response.abort 403, []⟩ else
  match getById User.id db.users user_id with
  | none => ⟨db, Response.abort 404, []⟩
  | some user =>
    if user.id == cu.id then
      ⟨db, Response.redirect "admin", [⟨"You cannot delete your own account!", "danger"⟩]⟩
    else
      let db1 := log_activity db (some cu) "deleted" "user" (some user_id)
        (some ("Deleted user: " ++ user.username))
      let db2 : DB := { db1 with users := deleteById User.id db1.users user_id }
      ⟨db2, Response.redirect "admin",
        [⟨"User '" ++ user.username ++ "' has been deleted successfully.", "success"⟩]⟩

/-! ## The mutating web operations as one step relation -/

/-- One mutating request against the Post/Comment/User store. -/
inductive WebOp where
  | newPost (cu : User) (req : PostRequest) (hexa hexb : String) (now : Date)
  | editPost (cu : User) (pid : Nat) (req : PostRequest) (hexa hexb : String)
  | completePost (cu : User) (pid : Nat)
  | reopenPost (cu : User) (pid : Nat)
  | deletePost (cu : User) (pid : Nat)
  | deleteComment (cu : User) (cid : Nat)
  | deleteUser (cu : User) (uid : Nat)

/-- Whether the operation is the explicit complete transition. -/
def WebOp.isComplete : WebOp → Bool
  | .completePost _ _ => true
  | _ => false

/-- Dispatch one operation to its handler. -/
def applyOp (db : DB) : WebOp → Outcome
  | .newPost cu req hexa hexb now => new_post db cu req hexa hexb now
  | .editPost cu pid req hexa hexb => edit_post db cu pid req hexa hexb
  | .completePost cu pid => complete_post db cu pid
  | .reopenPost cu pid => reopen_post db cu pid
  | .deletePost cu pid => delete_post db cu pid
  | .deleteComment cu cid => delete_comment db cu cid
  | .deleteUser cu uid => delete_user db cu uid

/-- The store after a sequence of web operations. -/
def applyOps (db : DB) : List WebOp → DB
  | [] => db
  | op :: ops => applyOps (applyOp db op).db ops

/-! ## Date formatting (strftime patterns used by the export code) -/

/-- Two-digit zero-padded decimal (`%m`, `%d`). -/
def pad2 (n : Nat) : String := if n < 10 then "0" ++ toString n else toString n

/-- Four-digit zero-padded year (`%Y`). -/
def pad4 (n : Nat) : String :=
  if n < 10 then "000" ++ toString n
  else if n < 100 then "00" ++ toString n
  else if n < 1000 then "0" ++ toString n
  else toString n

/-- `%B` month name. -/
def monthName : Nat → String
  | 1 => "January" | 2 => "February" | 3 => "March" | 4 => "April"
  | 5 => "May" | 6 => "June" | 7 => "July" | 8 => "August"
  | 9 => "September" | 10 => "October" | 11 => "November" | 12 => "December"
  | _ => ""

/-- `strftime('%Y-%m-%d')`. -/
def fmtDateYMD (d : Date) : String :=
  pad4 d.year ++ "-" ++ pad2 d.month ++ "-" ++ pad2 d.day

/-- `strftime('%B %d, %Y')`. -/
def fmtDateLong (d : Date) : String :=
  monthName d.month ++ " " ++ pad2 d.day ++ ", " ++ toString d.year

/-! ## Query/filter layer -/

/-- Bool prefix test on character lists. -/
def startsWithCL : List Char → List Char → Bool
  | _, [] => true
  | [], _ :: _ => false
  | c :: cs, d :: ds => c == d && startsWithCL cs ds

/-- Bool contiguous-substring test on character lists. -/
def infixCL : List Char → List Char → Bool
  | [], needle => startsWithCL [] needle
  | h :: t, needle => startsWithCL (h :: t) needle || infixCL t needle

/-- SQL `column ILIKE '%pat%'`: case-insensitive substring. -/
def ilike (field pat : String) : Bool :=
  infixCL (lowerChars field.toList) (lowerChars pat.toList)

/-- `a <= b` on dates (midnight datetimes compare like their dates). -/
def dateLe (a b : Date) : Bool :=
  a.year < b.year
    || (a.year == b.year && (a.month < b.month
        || (a.month == b.month && a.day ≤ b.day)))

/-- Insertion step for `order_by(Post.date_realization.desc())`. -/
def insertDesc (p : Post) : List Post → List Post
  | [] => [p]
  | q :: qs =>
    if dateLe q.date_realization p.date_realization then p :: q :: qs
    else q :: insertDesc p qs

/-- `order_by(Post.date_realization.desc())` as a stable-enough sort. -/
def sortByDateRealizationDesc (ps : List Post) : List Post :=
  ps.foldr insertDesc []

/-- The query parameters of `/export-pdf` (`request.args.get(..., '')`,
`export_format` defaulting to `'summary'`). -/
structure ExportArgs where
  export_format : String
  post_type : String
  status : String
  audit_date_from : String
  audit_date_to : String
  responsible : String
  area : String
  author : String
  audit_type : String
  project : String
deriving DecidableEq

/-- All filters absent (the defaults of `request.args.get`). -/
def defaultExportArgs : ExportArgs :=
  { export_format := "summary", post_type := "", status := "", audit_date_from := ""
    audit_date_to := "", responsible := "", area := "", author := ""
    audit_type := "", project := "" }

/-- routes.py lines 935-959: the filter chain of `export_filtered_pdf`.
Date arguments are parsed with `strptime` (a bad string raises, hence
`Except`); SQL `NULL` comparisons and `ILIKE` on `NULL` columns exclude the
row; the author filter is an inner join on `user_id` plus an `ILIKE` on the
username. -/
def applyFilters (args : ExportArgs) (db : DB) : Except String (List Post) :=
  match parseOptionalDate args.audit_date_from with
  | Except.error e => Except.error e
  | Except.ok date_from =>
    match parseOptionalDate args.audit_date_to with
    | Except.error e => Except.error e
    | Except.ok date_to =>
      Except.ok (db.posts.filter (fun p =>
        (args.post_type == "" || p.post_type == args.post_type)
        && (args.status == "" || p.status == args.status)
        && (match date_from with
            | none => true
            | some df => match p.audit_date with
              | some ad => dateLe df ad
              | none => false)
        && (match date_to with
            | none => true
            | some dt => match p.audit_date with
              | some ad => dateLe ad dt
              | none => false)
        && (args.responsible == "" || ilike p.responsible args.responsible)
        && (args.area == "" || (match p.area with
            | some a => ilike a args.area
            | none => false))
        && (args.author == "" || (match getById User.id db.users p.user_id with
            | some u => ilike u.username args.author
            | none => false))
        && (args.audit_type == "" || (match p.audit_type with
            | some t => t == args.audit_type
            | none => false))
        && (args.project == "" || (match p.project with
            | some pr => ilike pr args.project
            | none => false))))

/-! ## Report export engine (app/routes.py PDF builders) -/

/-- Path of a stored upload (`os.path.join(app.root_path, 'static',
'uploads', fn)`; the root prefix is constant and elided). -/
def uploadsPath (fn : String) : String := "static/uploads/" ++ fn

/-- The call `Image(img_path, width=3*inch, height=2.2*inch)` in
`generate_detailed_pdf` (routes.py lines 1116 and 1129).  In routes.py the
name `Image` is bound by `from PIL import Image` (line 4) — the reportlab
flowable was imported `as RLImage` (line 14) — so this calls the PIL
*module*, which raises `TypeError: 'module' object is not callable` on every
invocation. -/
def pilImageCall (path : String) : Except String Unit :=
  Except.error ("TypeError: 'module' object is not callable: " ++ path)

/-- `RLImage(image_path)` in `export_all_posts_detailed_pdf`: reads the file
to get its size, so it can fail; the outcome is supplied by the environment
`rlimg` (dimensions on success).  The aspect-ratio rescale of the result is
presentation data and elided. -/
def rlImageOutcome (rlimg : String → Except String (Nat × Nat)) (path : String) :
    Except String (Nat × Nat) := rlimg path

/-- The try-block for the problem image in `generate_detailed_pdf`
(routes.py lines 1112-1122): join the path, check existence, construct the
image (which raises, see `pilImageCall`), and on any exception contribute
nothing (`except: pass`). -/
def tryProblemImgCell (fs : String → Bool) (post : Post) : List (String × String) :=
  let img_path := uploadsPath (optStr post.image_problem)
  if fs img_path then
    match pilImageCall img_path with
    | Except.ok _ => [("Problem/Opportunity", img_path)]
    | Except.error _ => []
  else []

/-- The try-block for the corrective image in `generate_detailed_pdf`
(routes.py lines 1125-1135). -/
def tryCorrectiveImgCell (fs : String → Bool) (post : Post) : List (String × String) :=
  let img_path := uploadsPath (optStr post.image_corrective)
  if fs img_path then
    match pilImageCall img_path with
    | Except.ok _ => [("Corrective Action", img_path)]
    | Except.error _ => []
  else []

/-- routes.py lines 1103-1141: the images section of `generate_detailed_pdf`
— an `IMAGES` heading when either image field is truthy, then the side-by-side
table of whatever cells the two try-blocks produced, if any. -/
def imagesSectionFiltered (fs : String → Bool) (post : Post) : List Element :=
  if truthyOpt post.image_problem || truthyOpt post.image_corrective then
    Element.par "IMAGES" ::
      (let img_row :=
        (if truthyOpt post.image_problem then tryProblemImgCell fs post else [])
          ++ (if truthyOpt post.image_corrective then tryCorrectiveImgCell fs post else [])
      if img_row.isEmpty then [] else [Element.imgTable img_row, Element.spacer 1 12])
  else []

/-- Nullable string shown as `value or '-'`. -/
def optDash (o : Option String) : String :=
  match o with
  | none => "-"
  | some s => if s = "" then "-" else s

/-- `post.audit_date.strftime('%B %d, %Y') if post.audit_date else '-'`. -/
def optDateDash (o : Option Date) : String :=
  match o with
  | none => "-"
  | some d => fmtDateLong d

/-- routes.py lines 1062-1167: one post's page in `generate_detailed_pdf`
(header banner, status badge, problem box, details grid, images section,
analysis block, separator bar). -/
def filteredDetailBlock (fs : String → Bool) (users : List User) (title_type : String)
    (post : Post) : List Element :=
  [Element.tbl "header" [[String.map Char.toUpper title_type], ["Action Plan Report"]],
   Element.spacer 1 15,
   Element.tbl "badge" [[post.status]],
   Element.spacer 1 15,
   Element.par "PROBLEM / OPPORTUNITY",
   Element.tbl "problem" [[post.problem]],
   Element.spacer 1 12,
   Element.tbl "details"
     [["Responsible:", "Area:", "Project:"],
      [post.responsible, optDash post.area, optDash post.project],
      ["Target Date:", "Audit Date:", "Author:"],
      [fmtDateLong post.date_realization, optDateDash post.audit_date,
       usernameOf users post.user_id]],
   Element.spacer 1 12]
  ++ imagesSectionFiltered fs post
  ++ [Element.par "ANALYSIS",
      Element.tbl "analysis" [["Cause", "Corrective Action"],
        [post.cause, post.corrective_action]],
      Element.spacer 1 20,
      Element.tbl "separator" [[""]]]

/-- The `for idx, post in enumerate(posts)` loop of
`export_all_posts_detailed_pdf` with
`if idx < len(posts) - 1: elements.append(PageBreak())` at the end of each
iteration, over precomputed per-post blocks.  In that function the
function-local `from reportlab.platypus import PageBreak` (routes.py line
756) binds the name, so the break really is appended. -/
def loopWithBreaks (total : Nat) : Nat → List (List Element) → List Element
  | _, [] => []
  | idx, b :: bs =>
    b ++ (if idx < total - 1 then [Element.pageBreak] else [])
      ++ loopWithBreaks total (idx + 1) bs

/-- Evaluation of the name `PageBreak` inside `generate_detailed_pdf`
(routes.py line 1170): the only import of `PageBreak` (routes.py line 756)
is local to `export_all_posts_detailed_pdf`, and the module-level
reportlab imports (line 14) do not include it, so in this function the name
is unbound and evaluating it raises `NameError`. -/
def pageBreakNameFiltered : Except String Element :=
  Except.error "NameError: name 'PageBreak' is not defined"

/-- The `for idx, post in enumerate(posts)` loop of `generate_detailed_pdf`
(routes.py lines 1062-1170): each iteration appends the post's block and
then, when `idx < len(posts) - 1`, evaluates `PageBreak()` — which raises
`NameError` here (see `pageBreakNameFiltered`), aborting the whole request;
nothing of the loop's output survives an exception. -/
def filteredDetailLoop (fs : String → Bool) (users : List User) (title_type : String)
    (total : Nat) : Nat → List Post → Except String (List Element)
  | _, [] => Except.ok []
  | idx, p :: ps =>
    match (if idx < total - 1 then
            match pageBreakNameFiltered with
            | Except.ok pb => Except.ok [pb]
            | Except.error e => Except.error e
          else Except.ok []) with
    | Except.error e => Except.error e
    | Except.ok brk =>
      match filteredDetailLoop fs users title_type total (idx + 1) ps with
      | Except.error e => Except.error e
      | Except.ok rest =>
        Except.ok (filteredDetailBlock fs users title_type p ++ brk ++ rest)

/-- routes.py lines 1049-1176 `generate_detailed_pdf`: the enumerate loop
over the posts, then the closing footer — or the unhandled exception the
loop raised (for two or more posts, the `NameError` from the unbound
`PageBreak` name). -/
def generate_detailed_pdf_run (fs : String → Bool) (users : List User)
    (title_type : String) (posts : List Post) (now : String) :
    Except String (List Element) :=
  match filteredDetailLoop fs users title_type posts.length 0 posts with
  | Except.error e => Except.error e
  | Except.ok body =>
    Except.ok (body
      ++ [Element.spacer 1 20,
          Element.par ("Generated: " ++ now ++ " | " ++ toString posts.length ++ " posts")])

/-- routes.py lines 839-864: the legacy single-image section of
`export_all_posts_detailed_pdf` — heading `IMAGE` once the file exists, then
the image unless `RLImage` raises (`except: pass`). -/
def legacyImageSection (fs : String → Bool) (rlimg : String → Except String (Nat × Nat))
    (post : Post) : List Element :=
  if truthyOpt post.image_file && (optStr post.image_file != "default.jpg") then
    if fs (uploadsPath (optStr post.image_file)) then
      Element.par "IMAGE" ::
        (match rlImageOutcome rlimg (uploadsPath (optStr post.image_file)) with
         | Except.ok _ =>
            [Element.imgTable [("IMAGE", uploadsPath (optStr post.image_file))],
             Element.spacer 1 15]
         | Except.error _ => [])
    else []
  else []

/-- routes.py lines 774-895: one post's page in
`export_all_posts_detailed_pdf`. -/
def exportAllDetailBlock (fs : String → Bool) (rlimg : String → Except String (Nat × Nat))
    (users : List User) (post : Post) : List Element :=
  [Element.tbl "header" [["WASTE WALK"], ["Action Plan Report"]],
   Element.spacer 1 20,
   Element.tbl "badge" [["STATUS: " ++ String.map Char.toUpper post.status]],
   Element.spacer 1 15,
   Element.par "PROBLEM",
   Element.tbl "problem" [[post.problem]],
   Element.spacer 1 10,
   Element.tbl "details"
     [["Responsible", "Date", "Author"],
      [post.responsible, fmtDateLong post.date_realization, usernameOf users post.user_id]],
   Element.spacer 1 15]
  ++ legacyImageSection fs rlimg post
  ++ [Element.par "ANALYSIS",
      Element.tbl "analysis" [["Cause", "Corrective Action"],
        [post.cause, post.corrective_action]],
      Element.spacer 1 20,
      Element.tbl "separator" [[""]]]

/-- Body of `export_all_posts_detailed_pdf`: the enumerate loop. -/
def exportAllDetailBody (fs : String → Bool) (rlimg : String → Except String (Nat × Nat))
    (users : List User) (posts : List Post) : List Element :=
  loopWithBreaks posts.length 0 (posts.map (exportAllDetailBlock fs rlimg users))

/-- routes.py lines 754-912 `export_all_posts_detailed_pdf`: element list
(pages, then spacer and final footer). -/
def export_all_detailed_elems (fs : String → Bool)
    (rlimg : String → Except String (Nat × Nat)) (users : List User)
    (posts : List Post) (now : String) : List Element :=
  exportAllDetailBody fs rlimg users posts
    ++ [Element.spacer 1 30,
        Element.par ("Generated on " ++ now ++ " | Waste Walk Action Plan System | "
          ++ toString posts.length ++ " posts")]

/-- The route `/export-all-detailed-pdf` (ordering by target date, then the
document build; no emptiness check). -/
def export_all_posts_detailed_pdf (fs : String → Bool)
    (rlimg : String → Except String (Nat × Nat)) (db : DB) (now : String) : Outcome :=
  ⟨db, Response.pdf (export_all_detailed_elems fs rlimg db.users
      (sortByDateRealizationDesc db.posts) now), []⟩

/-- `len([p for p in posts if p.status == s])`. -/
def statusCount (posts : List Post) (s : String) : Nat :=
  (posts.filter (fun p => p.status == s)).length

/-- One row of the `/export-all-pdf` summary table (routes.py lines
693-702). -/
def allPostsSummaryRow (users : List User) (i : Nat) (post : Post) : List String :=
  [toString i,
   post.problem.take 60 ++ (if post.problem.length > 60 then "..." else ""),
   post.status,
   post.responsible.take 20 ++ (if post.responsible.length > 20 then "..." else ""),
   fmtDateYMD post.date_realization,
   usernameOf users post.user_id]

/-- `enumerate(posts, 1)` over the summary rows. -/
def allPostsSummaryRows (users : List User) : Nat → List Post → List (List String)
  | _, [] => []
  | i, p :: ps => allPostsSummaryRow users i p :: allPostsSummaryRows users (i + 1) ps

/-- routes.py lines 653-748 `export_all_posts_pdf`: header banner, stats
line, one summary table, footer — built and returned unconditionally (there
is no empty-result check on this route). -/
def export_all_posts_pdf (db : DB) (now : String) : Outcome :=
  let posts := sortByDateRealizationDesc db.posts
  ⟨db,
   Response.pdf
     [Element.tbl "header" [["WASTE WALK - ALL POSTS REPORT"]],
      Element.spacer 1 5,
      Element.par ("Total: " ++ toString posts.length ++ " posts | Open: "
        ++ toString (statusCount posts "Open") ++ " | In Progress: "
        ++ toString (statusCount posts "In Progress") ++ " | Completed: "
        ++ toString (statusCount posts "Completed")),
      Element.tbl "posts"
        (["#", "Problem", "Status", "Responsible", "Date", "Author"]
          :: allPostsSummaryRows db.users 1 posts),
      Element.spacer 1 20,
      Element.par ("Generated on " ++ now ++ " | Waste Walk Action Plan System")],
   []⟩

/-- Insertion-ordered status counts (`status_counts` dict of
`generate_summary_pdf`). -/
def bumpStatusCounts (acc : List (String × Nat)) (s : String) : List (String × Nat) :=
  match acc with
  | [] => [(s, 1)]
  | (t, c) :: rest => if t == s then (t, c + 1) :: rest else (t, c) :: bumpStatusCounts rest s

/-- `status_counts` after the loop over `posts`. -/
def statusCountsOf (posts : List Post) : List (String × Nat) :=
  posts.foldl (fun a p => bumpStatusCounts a p.status) []

/-- The stats line of `generate_summary_pdf`. -/
def statsTextOf (posts : List Post) : String :=
  "Total: " ++ toString posts.length ++ " | "
    ++ String.intercalate " | "
        ((statusCountsOf posts).map (fun sc => sc.1 ++ ": " ++ toString sc.2))

/-- `'-' if empty` used for the type column. -/
def strOrDash (s : String) : String := if s = "" then "-" else s

/-- One row of the filtered summary table (routes.py lines 1001-1011). -/
def filteredSummaryRow (i : Nat) (post : Post) : List String :=
  [toString i,
   strOrDash post.post_type,
   (if post.problem.length > 40 then post.problem.take 40 ++ "..." else post.problem),
   (if post.responsible.length > 15 then post.responsible.take 15 ++ "..." else post.responsible),
   optDash post.area,
   fmtDateYMD post.date_realization,
   post.status]

/-- `enumerate(posts, 1)` over the filtered summary rows. -/
def filteredSummaryRows : Nat → List Post → List (List String)
  | _, [] => []
  | i, p :: ps => filteredSummaryRow i p :: filteredSummaryRows (i + 1) ps

/-- routes.py lines 972-1046 `generate_summary_pdf`: element list. -/
def generate_summary_pdf_elems (title_type : String) (posts : List Post)
    (now : String) : List Element :=
  [Element.par (title_type ++ " - Action Plan Summary"),
   Element.par ("Generated: " ++ now),
   Element.spacer 1 20,
   Element.par (statsTextOf posts),
   Element.spacer 1 10,
   Element.tbl "summary"
     (["#", "Type", "Problem", "Responsible", "Area", "Target Date", "Status"]
       :: filteredSummaryRows 1 posts)]

/-- `post_type or 'All Types'`. -/
def titleOr (s : String) : String := if s = "" then "All Types" else s

/-- routes.py lines 918-969 `export_filtered_pdf`: apply the filters (a bad
date argument raises, giving a 500), order by target date, warn-and-redirect
on an empty result, otherwise build the detailed or summary document. -/
def export_filtered_pdf (fs : String → Bool) (db : DB) (args : ExportArgs)
    (now : String) : Outcome :=
  match applyFilters args db with
  | Except.error _ => ⟨db, Response.abort 500, []⟩
  | Except.ok matched =>
    let posts := sortByDateRealizationDesc matched
    if posts.isEmpty then
      ⟨db, Response.redirect "home",
        [⟨"No posts found matching your filter criteria.", "warning"⟩]⟩
    else if args.export_format == "detailed" then
      match generate_detailed_pdf_run fs db.users (titleOr args.post_type) posts now with
      | Except.error _ => ⟨db, Response.abort 500, []⟩
      | Except.ok elements => ⟨db, Response.pdf elements, []⟩
    else
      ⟨db, Response.pdf (generate_summary_pdf_elems (titleOr args.post_type) posts now), []⟩

/-! ## Concrete sample data (used by witnesses and counterexamples) -/

def sampleAdmin : User :=
  { id := 1, username := "admin1", password := "hashA", role := "admin" }

def sampleViewer : User :=
  { id := 2, username := "vera", password := "hashV", role := "viewer" }

def d0 : Date := ⟨2024, 3, 15⟩

def emptyDb : DB :=
  { users := [sampleAdmin, sampleViewer], posts := [], comments := [], activity_log := [] }

def samplePostNoCorrective : Post :=
  { id := 1, post_type := "Waste Walk", problem := "Leak near press", cause := ""
    corrective_action := "Fix seal", image_file := some "default.jpg"
    image_problem := none, image_corrective := none, responsible := "Ops"
    area := none, project := none, date_realization := d0, date_created := d0
    audit_date := none, audit_type := none, status := "Open", user_id := 1 }

def samplePostBothImages : Post :=
  { samplePostNoCorrective with
    id := 2, image_problem := some "p1.png", image_corrective := some "c1.png" }

def sampleComment : Comment :=
  { id := 1, content := "Please recheck", date_posted := d0, user_id := 1, post_id := 1 }

def dbWithPost : DB := { emptyDb with posts := [samplePostNoCorrective] }

def dbWithComment : DB :=
  { emptyDb with posts := [samplePostNoCorrective], comments := [sampleComment] }

def sampleForm : PostFormData :=
  { post_type := "Waste Walk", problem := "Leak near press"
    corrective_action := "Fix seal", image_problem := none, image_corrective := none
    responsible := "Ops", project_area := "", date_realization := "2024-03-15"
    audit_date := "", audit_type := "" }

def dbTwoPosts : DB :=
  { emptyDb with posts := [samplePostNoCorrective, samplePostBothImages] }

def detailedArgs : ExportArgs := { defaultExportArgs with export_format := "detailed" }

/-- Recognizer for PDF responses. -/
def isPdfResponse : Response → Bool
  | .pdf _ => true
  | _ => false

/-- Recognizer for rendered image tables. -/
def isImgTableElem : Element → Bool
  | .imgTable _ => true
  | _ => false

/-! ## C6 -/

/-- C6: for every Post and every update request (valid or not), `edit_post`
leaves every post's status unchanged — the edit form cannot change status,
whatever the other field changes are. -/
theorem c6_edit_preserves_status (db : DB) (cu : User) (pid : Nat) (req : PostRequest)
    (hexa hexb : String) :
    (edit_post db cu pid req hexa hexb).db.posts.map (fun p => (p.id, p.status))
      = db.posts.map (fun p => (p.id, p.status)) := by
  unfold edit_post
  split
  · rfl
  · split
    · rfl
    · split
      · rfl
      · split
        · split
          · rfl
          · split
            · rfl
            · exact map_updateById Post.id (fun p => (p.id, p.status)) db.posts pid _
                (fun y => rfl)
        · rfl

/-! ## C9 -/

/-- C9: an admin deleting their own user id is turned away with a flash and
no state change — no User row is deleted and no ActivityLog entry is
written. -/
theorem c9_admin_no_self_delete (db : DB) (cu : User) (u : User)
    (hrole : cu.role = "admin")
    (hget : getById User.id db.users cu.id = some u) :
    (delete_user db cu cu.id).db = db
  ∧ (delete_user db cu cu.id).response = Response.redirect "admin"
  ∧ (delete_user db cu cu.id).flashes
      = [⟨"You cannot delete your own account!", "danger"⟩] := by
  have hrole' : rolesRequired ["admin"] cu = true := by
    simp [rolesRequired, hrole]
  have hid : u.id = cu.id := getById_key User.id db.users cu.id u hget
  unfold delete_user
  rw [hget]
  simp [hrole', hid]

/-- C9 witness: the sample admin cannot delete user id 1 (their own id). -/
theorem c9_admin_no_self_delete_witness :
    (delete_user emptyDb sampleAdmin 1).db = emptyDb
  ∧ (delete_user emptyDb sampleAdmin 1).response = Response.redirect "admin"
  ∧ (delete_user emptyDb sampleAdmin 1).flashes
      = [⟨"You cannot delete your own account!", "danger"⟩] :=
  c9_admin_no_self_delete emptyDb sampleAdmin sampleAdmin rfl rfl

/-! ## C7 -/

/-- C7 counterexample: `/export-all-pdf` on a store with zero posts — an
export request whose (empty) filter set matches zero posts — still produces
a PDF document and shows no warning, contradicting the claim as stated for
"every export request". -/
theorem c7_counterexample_export_all :
    emptyDb.posts = []
  ∧ isPdfResponse (export_all_posts_pdf emptyDb "January 01, 2026 at 00:00").response = true
  ∧ (export_all_posts_pdf emptyDb "January 01, 2026 at 00:00").flashes = [] :=
  ⟨rfl, rfl, rfl⟩

/-- C7 (amended): for the filtered export route `/export-pdf`, a filter set
matching zero posts produces no PDF: the handler redirects home with a
user-visible warning and the store is unchanged. -/
theorem c7_filtered_empty_no_pdf (fs : String → Bool) (db : DB) (args : ExportArgs)
    (now : String) (h : applyFilters args db = Except.ok []) :
    export_filtered_pdf fs db args now
      = ⟨db, Response.redirect "home",
          [⟨"No posts found matching your filter criteria.", "warning"⟩]⟩ := by
  unfold export_filtered_pdf
  rw [h]
  simp [sortByDateRealizationDesc]

/-- C7 witness: the default filters on the empty store match zero posts and
the filtered export warns instead of producing a document. -/
theorem c7_filtered_empty_no_pdf_witness :
    export_filtered_pdf (fun _ => false) emptyDb defaultExportArgs "t"
      = ⟨emptyDb, Response.redirect "home",
          [⟨"No posts found matching your filter criteria.", "warning"⟩]⟩ :=
  c7_filtered_empty_no_pdf (fun _ => false) emptyDb defaultExportArgs "t" rfl

/-! ## C4 -/

/-- C4 (code bug): in the detailed filtered export, a post referencing both
a problem image and a corrective image whose files exist still renders no
image at all — the one-post export succeeds (the page-break branch is never
reached) and its document is exactly the post's block plus the footer, where
the `IMAGES` heading is emitted but every image-construction attempt hits
the shadowed `Image` name (the PIL module, not `RLImage`) and the resulting
`TypeError` is swallowed by the bare `except`.  The all-posts detailed
export renders nothing either: it only consults the legacy `image_file`
field, which is `default.jpg` here. -/
theorem c4_detailed_images_dropped :
    truthyOpt samplePostBothImages.image_problem = true
  ∧ truthyOpt samplePostBothImages.image_corrective = true
  ∧ generate_detailed_pdf_run (fun _ => true) emptyDb.users "All Types"
        [samplePostBothImages] "t"
      = Except.ok
          (filteredDetailBlock (fun _ => true) emptyDb.users "All Types"
              samplePostBothImages
            ++ [Element.spacer 1 20, Element.par "Generated: t | 1 posts"])
  ∧ Element.par "IMAGES"
      ∈ filteredDetailBlock (fun _ => true) emptyDb.users "All Types" samplePostBothImages
  ∧ (filteredDetailBlock (fun _ => true) emptyDb.users "All Types"
        samplePostBothImages).filter isImgTableElem = []
  ∧ (export_all_detailed_elems (fun _ => true) (fun _ => Except.ok (100, 100))
        emptyDb.users [samplePostBothImages] "t").filter isImgTableElem = [] := by
  refine ⟨rfl, rfl, rfl, by decide, by decide, by decide⟩

/-! ## C5 -/

/-- C5 counterexample: the filename `".png"` is accepted by `allowed_file`
(the substring after its last dot is `png`), but the stored filename is the
bare 16-hex token: `os.path.splitext` yields an empty extension for a
dotfile-style name, so the original `.png` extension is not preserved (the
stored name contains no dot at all). -/
theorem c5_dotfile_counterexample :
    allowed_file ".png" = true
  ∧ save_picture_fn "0123456789abcdef" ".png" = "0123456789abcdef"
  ∧ hasDot (save_picture_fn "0123456789abcdef" ".png").toList = false := by
  refine ⟨by decide, by decide, by decide⟩

/-- C5 (amended): acceptance is exactly as the claim states (iff the
substring after the last `'.'` is, case-insensitively, an allowed
extension; no dot means rejection); on acceptance the stored name is the
random token plus `os.path.splitext`'s extension, which equals `'.'` plus
the original after-the-last-dot characters (case preserved) whenever the
basename has a non-dot character before its last dot, and is empty —
leaving the bare token — otherwise (e.g. for `".png"`). -/
theorem c5_save_picture_extension (random_hex fn : String) :
    allowed_file fn = acceptSpecC5 fn
  ∧ (extQualifies fn.toList = true →
      save_picture_fn random_hex fn
        = random_hex ++ String.mk ('.' :: afterLastDot (basenameChars fn.toList)))
  ∧ (extQualifies fn.toList = false →
      save_picture_fn random_hex fn = random_hex) := by
  refine ⟨?_, ?_, ?_⟩
  · by_cases h : hasDot fn.toList = true
    · simp only [String.toList] at h
      simp [allowed_file, acceptSpecC5, extAfterLastDotSpec_eq, h]
    · have h' : hasDot fn.data = false := by
        simpa [String.toList] using h
      simp [allowed_file, acceptSpecC5, extAfterLastDotSpec_eq, h']
  · intro h
    simp only [String.toList] at h
    simp [save_picture_fn, splitext_ext, h]
  · intro h
    simp only [String.toList] at h
    simp [save_picture_fn, splitext_ext, h]

/-- C5 witness: `photo.PNG` qualifies, is accepted, and is stored as the
16-hex token with the `.PNG` extension preserved in its original case. -/
theorem c5_save_picture_extension_witness :
    extQualifies "photo.PNG".toList = true
  ∧ allowed_file "photo.PNG" = acceptSpecC5 "photo.PNG"
  ∧ save_picture_fn "0123456789abcdef" "photo.PNG"
      = "0123456789abcdef"
        ++ String.mk ('.' :: afterLastDot (basenameChars "photo.PNG".toList)) :=
  ⟨by decide, (c5_save_picture_extension "0123456789abcdef" "photo.PNG").1,
   (c5_save_picture_extension "0123456789abcdef" "photo.PNG").2.1 (by decide)⟩

/-! ## C1 -/

/-- C1: for a post and acting user passing the role and ownership checks,
`complete_post` is a no-op with a user-facing warning when
`image_corrective` is absent (the whole store, status and log included, is
unchanged); when present it sets exactly that post's status to `Completed`,
leaves every other field and row alone, and appends exactly one ActivityLog
entry with action `completed`. -/
theorem c1_complete_requires_corrective (db : DB) (cu : User) (pid : Nat) (post : Post)
    (hrole : cu.role = "admin" ∨ cu.role = "publisher")
    (hget : getById Post.id db.posts pid = some post)
    (hown : post.user_id = cu.id ∨ cu.role = "admin") :
    (truthyOpt post.image_corrective = false →
      (complete_post db cu pid).db = db
      ∧ (complete_post db cu pid).response = Response.redirect "post_detail"
      ∧ (complete_post db cu pid).flashes.map Flash.category = ["warning"])
  ∧ (truthyOpt post.image_corrective = true →
      (∃ pre suf, db.posts = pre ++ post :: suf
        ∧ (complete_post db cu pid).db.posts
            = pre ++ ({ post with status := "Completed" } : Post) :: suf)
      ∧ (complete_post db cu pid).db.activity_log
          = db.activity_log
            ++ [⟨some cu.id, "completed", "post", some post.id,
                 some ("Completed post: " ++ post.problem.take 50)⟩]
      ∧ (complete_post db cu pid).db.users = db.users
      ∧ (complete_post db cu pid).db.comments = db.comments
      ∧ (complete_post db cu pid).flashes
          = [⟨"Post has been marked as Completed!", "success"⟩]) := by
  have hrole' : rolesRequired ["admin", "publisher"] cu = true := by
    rcases hrole with h | h <;> simp [rolesRequired, h]
  have hown' : (post.user_id != cu.id && cu.role != "admin") = false := by
    rcases hown with h | h <;> simp [h]
  constructor
  · intro himg
    have heq : complete_post db cu pid
        = ⟨db, Response.redirect "post_detail",
            [⟨"Cannot complete post without uploading a corrective action image. Please edit the post and upload an image.", "warning"⟩]⟩ := by
      unfold complete_post
      rw [hget]
      simp [hrole', hown', himg]
    rw [heq]
    exact ⟨rfl, rfl, rfl⟩
  · intro himg
    have heq : complete_post db cu pid
        = ⟨{ db with
              posts := updateById Post.id db.posts pid
                (fun p => { p with status := "Completed" })
              activity_log := db.activity_log
                ++ [⟨some cu.id, "completed", "post", some post.id,
                     some ("Completed post: " ++ post.problem.take 50)⟩] },
            Response.redirect "post_detail",
            [⟨"Post has been marked as Completed!", "success"⟩]⟩ := by
      unfold complete_post
      rw [hget]
      simp [hrole', hown', himg, log_activity]
    obtain ⟨pre, suf, h1, h2, _⟩ :=
      getById_decomp Post.id db.posts pid post (fun p => { p with status := "Completed" }) hget
    rw [heq]
    exact ⟨⟨pre, suf, h1, h2⟩, rfl, rfl, rfl, rfl⟩

/-- C1 witness: on the sample store, completing post 1 (no corrective image)
leaves the store unchanged and flashes a warning. -/
theorem c1_complete_requires_corrective_witness :
    (complete_post dbWithPost sampleAdmin 1).db = dbWithPost
  ∧ (complete_post dbWithPost sampleAdmin 1).response = Response.redirect "post_detail"
  ∧ (complete_post dbWithPost sampleAdmin 1).flashes.map Flash.category = ["warning"] :=
  (c1_complete_requires_corrective dbWithPost sampleAdmin 1 samplePostNoCorrective
    (Or.inl rfl) rfl (Or.inl rfl)).1 rfl

/-! ## C3 -/

/-- C3: `delete_comment` removes the comment and appends one ActivityLog
entry with target_type `comment` exactly when the actor is the comment's
author or an admin; any other actor gets a 403 with the store untouched and
nothing flashed or logged. -/
theorem c3_delete_comment_authz (db : DB) (cu : User) (cid : Nat) (c : Comment)
    (hget : getById Comment.id db.comments cid = some c) :
    ((c.user_id = cu.id ∨ cu.role = "admin") →
      (∃ pre suf, db.comments = pre ++ c :: suf
        ∧ (delete_comment db cu cid).db.comments = pre ++ suf)
      ∧ (delete_comment db cu cid).db.activity_log
          = db.activity_log
            ++ [⟨some cu.id, "deleted", "comment", some cid,
                 some ("Comment deleted from post " ++ toString c.post_id)⟩]
      ∧ (delete_comment db cu cid).db.posts = db.posts
      ∧ (delete_comment db cu cid).db.users = db.users)
  ∧ (¬(c.user_id = cu.id ∨ cu.role = "admin") →
      (delete_comment db cu cid).db = db
      ∧ (delete_comment db cu cid).response = Response.abort 403
      ∧ (delete_comment db cu cid).flashes = []) := by
  constructor
  · intro hallow
    have hallow' : (c.user_id != cu.id && cu.role != "admin") = false := by
      rcases hallow with h | h <;> simp [h]
    have heq : delete_comment db cu cid
        = ⟨{ db with
              comments := deleteById Comment.id db.comments cid
              activity_log := db.activity_log
                ++ [⟨some cu.id, "deleted", "comment", some cid,
                     some ("Comment deleted from post " ++ toString c.post_id)⟩] },
            Response.redirect "post_detail",
            [⟨"Comment has been deleted.", "success"⟩]⟩ := by
      unfold delete_comment
      rw [hget]
      simp [hallow', log_activity]
    obtain ⟨pre, suf, h1, _, h3⟩ :=
      getById_decomp Comment.id db.comments cid c id hget
    rw [heq]
    exact ⟨⟨pre, suf, h1, h3⟩, rfl, rfl, rfl⟩
  · intro hdeny
    push_neg at hdeny
    have hdeny' : (c.user_id != cu.id && cu.role != "admin") = true := by
      simp [bne_iff_ne, hdeny.1, hdeny.2]
    have heq : delete_comment db cu cid = ⟨db, Response.abort 403, []⟩ := by
      unfold delete_comment
      rw [hget]
      simp [hdeny']
    rw [heq]
    exact ⟨rfl, rfl, rfl⟩

/-- C3 witness: the viewer (not the author, not admin) cannot delete comment
1 — 403, store unchanged, nothing flashed. -/
theorem c3_delete_comment_authz_witness :
    (delete_comment dbWithComment sampleViewer 1).db = dbWithComment
  ∧ (delete_comment dbWithComment sampleViewer 1).response = Response.abort 403
  ∧ (delete_comment dbWithComment sampleViewer 1).flashes = [] :=
  (c3_delete_comment_authz dbWithComment sampleViewer 1 sampleComment rfl).2 (by decide)

/-! ## C8: page breaks in the detailed exports -/

/-- Specification-side shape: blocks joined with a single page break between
consecutive blocks and none after the last. -/
def sepByPageBreak : List (List Element) → List Element
  | [] => []
  | [b] => b
  | b :: bs => b ++ Element.pageBreak :: sepByPageBreak bs

/-- Number of page breaks in an element list. -/
def countPB : List Element → Nat
  | [] => 0
  | Element.pageBreak :: es => countPB es + 1
  | _ :: es => countPB es

theorem countPB_cons_tbl (t : String) (r : List (List String)) (es : List Element) :
    countPB (Element.tbl t r :: es) = countPB es := rfl

theorem countPB_cons_par (s : String) (es : List Element) :
    countPB (Element.par s :: es) = countPB es := rfl

theorem countPB_cons_spacer (a b : Nat) (es : List Element) :
    countPB (Element.spacer a b :: es) = countPB es := rfl

theorem countPB_cons_imgTable (c : List (String × String)) (es : List Element) :
    countPB (Element.imgTable c :: es) = countPB es := rfl

theorem countPB_cons_pageBreak (es : List Element) :
    countPB (Element.pageBreak :: es) = countPB es + 1 := rfl

theorem countPB_append (l1 l2 : List Element) :
    countPB (l1 ++ l2) = countPB l1 + countPB l2 := by
  induction l1 with
  | nil => simp [countPB]
  | cons e es ih =>
    cases e <;>
      simp [countPB_cons_tbl, countPB_cons_par, countPB_cons_spacer,
        countPB_cons_imgTable, countPB_cons_pageBreak, ih, List.cons_append]
    omega

/-- The enumerate-with-final-test loop produces exactly the
separator-between-blocks shape. -/
theorem loopWithBreaks_eq_sepBy (bs : List (List Element)) :
    ∀ idx total, idx + bs.length = total →
      loopWithBreaks total idx bs = sepByPageBreak bs := by
  induction bs with
  | nil => intro idx total _; rfl
  | cons b bs ih =>
    intro idx total h
    cases bs with
    | nil =>
      have ht : total - 1 = idx := by simp at h; omega
      simp [loopWithBreaks, sepByPageBreak, ht]
    | cons b' bs' =>
      have hlt : idx < total - 1 := by simp at h; omega
      have hstep : loopWithBreaks total idx (b :: b' :: bs')
          = b ++ (if idx < total - 1 then [Element.pageBreak] else [])
            ++ loopWithBreaks total (idx + 1) (b' :: bs') := rfl
      rw [hstep, if_pos hlt, ih (idx + 1) total (by simp at h ⊢; omega)]
      simp [sepByPageBreak]

theorem countPB_sepBy (bs : List (List Element)) (h : ∀ b ∈ bs, countPB b = 0) :
    countPB (sepByPageBreak bs) = bs.length - 1 := by
  induction bs with
  | nil => rfl
  | cons b bs ih =>
    cases bs with
    | nil =>
      simp [sepByPageBreak, h b (List.mem_cons_self b [])]
    | cons b' bs' =>
      have hb := h b (List.mem_cons_self b (b' :: bs'))
      have hrest := ih (fun x hx => h x (List.mem_cons_of_mem b hx))
      simp only [sepByPageBreak, countPB_append, hb, countPB_cons_pageBreak, hrest,
        List.length_cons]
      omega

theorem countPB_imagesSectionFiltered (fs : String → Bool) (post : Post) :
    countPB (imagesSectionFiltered fs post) = 0 := by
  have hrow : ∀ (row : List (String × String)),
      countPB (if row.isEmpty then ([] : List Element)
        else [Element.imgTable row, Element.spacer 1 12]) = 0 := by
    intro row
    split
    · rfl
    · rfl
  unfold imagesSectionFiltered
  split
  · rw [countPB_cons_par]
    dsimp only
    exact hrow _
  · rfl

theorem countPB_filteredDetailBlock (fs : String → Bool) (users : List User)
    (title_type : String) (post : Post) :
    countPB (filteredDetailBlock fs users title_type post) = 0 := by
  unfold filteredDetailBlock
  simp [countPB_append, countPB, countPB_imagesSectionFiltered]

theorem countPB_legacyImageSection (fs : String → Bool)
    (rlimg : String → Except String (Nat × Nat)) (post : Post) :
    countPB (legacyImageSection fs rlimg post) = 0 := by
  unfold legacyImageSection
  split
  · split
    · split <;> simp [countPB]
    · rfl
  · rfl

theorem countPB_exportAllDetailBlock (fs : String → Bool)
    (rlimg : String → Except String (Nat × Nat)) (users : List User) (post : Post) :
    countPB (exportAllDetailBlock fs rlimg users post) = 0 := by
  unfold exportAllDetailBlock
  simp [countPB_append, countPB, countPB_legacyImageSection]

/-- C8 (code bug): the all-posts detailed export does separate consecutive
posts with exactly one explicit page break between them and none after the
last (the body is the per-post blocks joined by single breaks, no block
contains one, `n` posts give `n - 1` breaks).  But the filtered detailed
export crashes instead of breaking pages: `PageBreak` is unbound inside
`generate_detailed_pdf` (the routes.py line 756 import is local to
`export_all_posts_detailed_pdf`), so any filtered detailed export of two or
more posts raises `NameError` — HTTP 500, no document and no page break —
while a one-post export (which never reaches the break branch) still
renders, with zero page breaks. -/
theorem c8_detailed_pagebreaks (fs : String → Bool)
    (rlimg : String → Except String (Nat × Nat)) (users : List User)
    (title_type now : String) (posts : List Post) :
    countPB (export_all_detailed_elems fs rlimg users posts now) = posts.length - 1
  ∧ exportAllDetailBody fs rlimg users posts
      = sepByPageBreak (posts.map (exportAllDetailBlock fs rlimg users))
  ∧ posts.all
      (fun p => countPB (exportAllDetailBlock fs rlimg users p) == 0) = true
  ∧ (∀ (p1 p2 : Post) (rest : List Post),
      generate_detailed_pdf_run fs users title_type (p1 :: p2 :: rest) now
        = Except.error "NameError: name 'PageBreak' is not defined")
  ∧ (∀ p : Post, ∃ es : List Element,
      generate_detailed_pdf_run fs users title_type [p] now = Except.ok es
        ∧ countPB es = 0)
  ∧ export_filtered_pdf (fun _ => true) dbTwoPosts detailedArgs "t"
      = ⟨dbTwoPosts, Response.abort 500, []⟩ := by
  have hbody2 : exportAllDetailBody fs rlimg users posts
      = sepByPageBreak (posts.map (exportAllDetailBlock fs rlimg users)) := by
    unfold exportAllDetailBody
    exact loopWithBreaks_eq_sepBy _ 0 posts.length (by simp)
  have hcount2 : countPB (sepByPageBreak
      (posts.map (exportAllDetailBlock fs rlimg users))) = posts.length - 1 := by
    rw [countPB_sepBy]
    · simp
    · intro b hb
      obtain ⟨p, _, rfl⟩ := List.mem_map.mp hb
      exact countPB_exportAllDetailBlock fs rlimg users p
  refine ⟨?_, hbody2, ?_, ?_, ?_, ?_⟩
  · unfold export_all_detailed_elems
    rw [countPB_append, hbody2, hcount2]
    simp [countPB]
  · exact List.all_eq_true.mpr (fun p _ => by
      rw [countPB_exportAllDetailBlock]; rfl)
  · intro p1 p2 rest
    have hlt : 0 < (p1 :: p2 :: rest).length - 1 := by simp
    simp [generate_detailed_pdf_run, filteredDetailLoop, pageBreakNameFiltered, hlt]
  · intro p
    refine ⟨_, rfl, ?_⟩
    simp [countPB_append, countPB_filteredDetailBlock, countPB_imagesSectionFiltered,
      countPB]
  · rfl

/-! ## Branch analyses of the handlers' effect on the posts table -/

theorem new_post_posts_cases (db : DB) (cu : User) (req : PostRequest)
    (hexa hexb : String) (now : Date) :
    (new_post db cu req hexa hexb now).db.posts = db.posts
  ∨ ∃ p : Post, (new_post db cu req hexa hexb now).db.posts = db.posts ++ [p]
      ∧ p.status = "Open" ∧ p.cause = "" := by
  unfold new_post
  split
  · exact Or.inl rfl
  · split
    · split
      · exact Or.inl rfl
      · split
        · exact Or.inl rfl
        · exact Or.inr ⟨_, rfl, rfl, rfl⟩
    · exact Or.inl rfl

theorem edit_post_posts_cases (db : DB) (cu : User) (pid : Nat) (req : PostRequest)
    (hexa hexb : String) :
    (edit_post db cu pid req hexa hexb).db.posts = db.posts
  ∨ ∃ dr ad, (edit_post db cu pid req hexa hexb).db.posts
      = updateById Post.id db.posts pid (editUpd req.form hexa hexb dr ad) := by
  unfold edit_post
  split
  · exact Or.inl rfl
  · split
    · exact Or.inl rfl
    · split
      · exact Or.inl rfl
      · split
        · split
          · exact Or.inl rfl
          · split
            · exact Or.inl rfl
            · exact Or.inr ⟨_, _, rfl⟩
        · exact Or.inl rfl

theorem complete_post_posts_cases (db : DB) (cu : User) (pid : Nat) :
    (complete_post db cu pid).db.posts = db.posts
  ∨ (complete_post db cu pid).db.posts
      = updateById Post.id db.posts pid (fun p => { p with status := "Completed" }) := by
  unfold complete_post
  split
  · exact Or.inl rfl
  · split
    · exact Or.inl rfl
    · split
      · exact Or.inl rfl
      · split
        · exact Or.inl rfl
        · exact Or.inr rfl

theorem reopen_post_posts_cases (db : DB) (cu : User) (pid : Nat) :
    (reopen_post db cu pid).db.posts = db.posts
  ∨ (reopen_post db cu pid).db.posts
      = updateById Post.id db.posts pid (fun p => { p with status := "Open" }) := by
  unfold reopen_post
  split
  · exact Or.inl rfl
  · split
    · exact Or.inl rfl
    · split
      · exact Or.inl rfl
      · exact Or.inr rfl

theorem delete_post_posts_cases (db : DB) (cu : User) (pid : Nat) :
    (delete_post db cu pid).db.posts = db.posts
  ∨ (delete_post db cu pid).db.posts = deleteById Post.id db.posts pid := by
  unfold delete_post
  split
  · exact Or.inl rfl
  · split
    · exact Or.inl rfl
    · split
      · exact Or.inl rfl
      · exact Or.inr rfl

theorem delete_comment_posts_eq (db : DB) (cu : User) (cid : Nat) :
    (delete_comment db cu cid).db.posts = db.posts := by
  unfold delete_comment
  split
  · rfl
  · split
    · rfl
    · rfl

theorem delete_user_posts_eq (db : DB) (cu : User) (uid : Nat) :
    (delete_user db cu uid).db.posts = db.posts := by
  unfold delete_user
  split
  · rfl
  · split
    · rfl
    · split
      · rfl
      · rfl

/-! ## C2 -/

/-- C2: a valid creation stores status exactly `Open` — the handler never
reads any status value in the payload (the form has no status field), and
exactly one post with status `Open` is appended; moreover no operation other
than the explicit complete transition can make any post `Completed` that was
not already `Completed`. -/
theorem c2_created_status_open (db : DB) (cu : User) (f : PostFormData)
    (hexa hexb : String) (now : Date) (dr : Date) (ad : Option Date)
    (hrole : rolesRequired ["admin", "publisher"] cu = true)
    (hvalid : postFormValidates f = true)
    (hdr : parseDateYMD f.date_realization = some dr)
    (had : parseOptionalDate f.audit_date = Except.ok ad) :
    (∀ s s' : Option String,
        new_post db cu ⟨f, s⟩ hexa hexb now = new_post db cu ⟨f, s'⟩ hexa hexb now)
  ∧ (∀ s : Option String,
        (new_post db cu ⟨f, s⟩ hexa hexb now).db.posts.map Post.status
          = db.posts.map Post.status ++ ["Open"])
  ∧ (∀ op : WebOp, WebOp.isComplete op = false →
        ∀ p', p' ∈ (applyOp db op).db.posts → p'.status = "Completed" →
          ∃ p, p ∈ db.posts ∧ p.id = p'.id ∧ p.status = "Completed") := by
  refine ⟨fun s s' => rfl, ?_, ?_⟩
  · intro s
    unfold new_post
    simp only [hrole, Bool.not_true, hvalid, hdr, had, if_false, if_true, log_activity]
    simp
  · intro op hop p' hp' hcomp
    cases op with
    | newPost cu2 req2 a2 b2 n2 =>
      simp only [applyOp] at hp'
      rcases new_post_posts_cases db cu2 req2 a2 b2 n2 with hsame | ⟨p, happ, hst, _⟩
      · rw [hsame] at hp'
        exact ⟨p', hp', rfl, hcomp⟩
      · rw [happ] at hp'
        rcases List.mem_append.mp hp' with hmem | hmem
        · exact ⟨p', hmem, rfl, hcomp⟩
        · have hpp : p' = p := by simpa using hmem
          subst hpp
          rw [hst] at hcomp
          exact absurd hcomp (by decide)
    | editPost cu2 pid2 req2 a2 b2 =>
      simp only [applyOp] at hp'
      rcases edit_post_posts_cases db cu2 pid2 req2 a2 b2 with hsame | ⟨dr2, ad2, hupd⟩
      · rw [hsame] at hp'
        exact ⟨p', hp', rfl, hcomp⟩
      · rw [hupd] at hp'
        rcases mem_updateById Post.id db.posts pid2 _ p' hp' with hmem | ⟨y, hy, rfl⟩
        · exact ⟨p', hmem, rfl, hcomp⟩
        · exact ⟨y, hy, rfl, hcomp⟩
    | completePost cu2 pid2 => simp [WebOp.isComplete] at hop
    | reopenPost cu2 pid2 =>
      simp only [applyOp] at hp'
      rcases reopen_post_posts_cases db cu2 pid2 with hsame | hupd
      · rw [hsame] at hp'
        exact ⟨p', hp', rfl, hcomp⟩
      · rw [hupd] at hp'
        rcases mem_updateById Post.id db.posts pid2 _ p' hp' with hmem | ⟨y, hy, rfl⟩
        · exact ⟨p', hmem, rfl, hcomp⟩
        · have hoc : ("Open" : String) = "Completed" := hcomp
          exact absurd hoc (by decide)
    | deletePost cu2 pid2 =>
      simp only [applyOp] at hp'
      rcases delete_post_posts_cases db cu2 pid2 with hsame | hdel
      · rw [hsame] at hp'
        exact ⟨p', hp', rfl, hcomp⟩
      · rw [hdel] at hp'
        exact ⟨p', mem_deleteById Post.id db.posts pid2 p' hp', rfl, hcomp⟩
    | deleteComment cu2 cid2 =>
      simp only [applyOp] at hp'
      rw [delete_comment_posts_eq db cu2 cid2] at hp'
      exact ⟨p', hp', rfl, hcomp⟩
    | deleteUser cu2 uid2 =>
      simp only [applyOp] at hp'
      rw [delete_user_posts_eq db cu2 uid2] at hp'
      exact ⟨p', hp', rfl, hcomp⟩

/-- C2 witness: the sample admin's valid creation on the empty store, with a
stray `status=Completed` field in the payload, stores exactly one post and
its status is `Open`. -/
theorem c2_created_status_open_witness :
    (new_post emptyDb sampleAdmin ⟨sampleForm, some "Completed"⟩ "aa" "bb" d0).db.posts.map
        Post.status
      = emptyDb.posts.map Post.status ++ ["Open"] :=
  (c2_created_status_open emptyDb sampleAdmin sampleForm "aa" "bb" d0 ⟨2024, 3, 15⟩ none
    (by decide) (by decide) (by decide) rfl).2.1 (some "Completed")

/-! ## C10 -/

theorem causeInv_applyOp (db : DB) (op : WebOp)
    (h : ∀ p ∈ db.posts, p.cause = "") :
    ∀ p' ∈ (applyOp db op).db.posts, p'.cause = "" := by
  intro p' hp'
  cases op with
  | newPost cu2 req2 a2 b2 n2 =>
    simp only [applyOp] at hp'
    rcases new_post_posts_cases db cu2 req2 a2 b2 n2 with hsame | ⟨p, happ, _, hc⟩
    · rw [hsame] at hp'
      exact h p' hp'
    · rw [happ] at hp'
      rcases List.mem_append.mp hp' with hmem | hmem
      · exact h p' hmem
      · have hpp : p' = p := by simpa using hmem
        rw [hpp]
        exact hc
  | editPost cu2 pid2 req2 a2 b2 =>
    simp only [applyOp] at hp'
    rcases edit_post_posts_cases db cu2 pid2 req2 a2 b2 with hsame | ⟨dr2, ad2, hupd⟩
    · rw [hsame] at hp'
      exact h p' hp'
    · rw [hupd] at hp'
      rcases mem_updateById Post.id db.posts pid2 _ p' hp' with hmem | ⟨y, hy, rfl⟩
      · exact h p' hmem
      · exact h y hy
  | completePost cu2 pid2 =>
    simp only [applyOp] at hp'
    rcases complete_post_posts_cases db cu2 pid2 with hsame | hupd
    · rw [hsame] at hp'
      exact h p' hp'
    · rw [hupd] at hp'
      rcases mem_updateById Post.id db.posts pid2 _ p' hp' with hmem | ⟨y, hy, rfl⟩
      · exact h p' hmem
      · exact h y hy
  | reopenPost cu2 pid2 =>
    simp only [applyOp] at hp'
    rcases reopen_post_posts_cases db cu2 pid2 with hsame | hupd
    · rw [hsame] at hp'
      exact h p' hp'
    · rw [hupd] at hp'
      rcases mem_updateById Post.id db.posts pid2 _ p' hp' with hmem | ⟨y, hy, rfl⟩
      · exact h p' hmem
      · exact h y hy
  | deletePost cu2 pid2 =>
    simp only [applyOp] at hp'
    rcases delete_post_posts_cases db cu2 pid2 with hsame | hdel
    · rw [hsame] at hp'
      exact h p' hp'
    · rw [hdel] at hp'
      exact h p' (mem_deleteById Post.id db.posts pid2 p' hp')
  | deleteComment cu2 cid2 =>
    simp only [applyOp] at hp'
    rw [delete_comment_posts_eq db cu2 cid2] at hp'
    exact h p' hp'
  | deleteUser cu2 uid2 =>
    simp only [applyOp] at hp'
    rw [delete_user_posts_eq db cu2 uid2] at hp'
    exact h p' hp'

theorem causeInv_applyOps (ops : List WebOp) :
    ∀ db : DB, (∀ p ∈ db.posts, p.cause = "") →
      ∀ p' ∈ (applyOps db ops).posts, p'.cause = "" := by
  induction ops with
  | nil => intro db h; exact h
  | cons op ops ih =>
    intro db h
    exact ih (applyOp db op).db (causeInv_applyOp db op h)

/-- C10: every post created through the web form has `cause = ''`, the edit
form never changes the cause column, and `cause = ''` is an invariant of
every sequence of web operations starting from a store where it holds. -/
theorem c10_cause_empty_invariant (db : DB) (ops : List WebOp)
    (h : ∀ p ∈ db.posts, p.cause = "") :
    (∀ p' ∈ (applyOps db ops).posts, p'.cause = "")
  ∧ (∀ (cu : User) (req : PostRequest) (hexa hexb : String) (now : Date),
      ∀ p' ∈ (new_post db cu req hexa hexb now).db.posts, p'.cause = "")
  ∧ (∀ (cu : User) (pid : Nat) (req : PostRequest) (hexa hexb : String),
      (edit_post db cu pid req hexa hexb).db.posts.map Post.cause
        = db.posts.map Post.cause) := by
  refine ⟨causeInv_applyOps ops db h, ?_, ?_⟩
  · intro cu req hexa hexb now
    exact causeInv_applyOp db (WebOp.newPost cu req hexa hexb now) h
  · intro cu pid req hexa hexb
    rcases edit_post_posts_cases db cu pid req hexa hexb with hsame | ⟨dr2, ad2, hupd⟩
    · rw [hsame]
    · rw [hupd]
      exact map_updateById Post.id Post.cause db.posts pid _ (fun y => rfl)

/-- C10 witness: on the sample store (all causes empty), an edit leaves the
cause column exactly as it was. -/
theorem c10_cause_empty_invariant_witness :
    (edit_post dbWithPost sampleAdmin 1 ⟨sampleForm, none⟩ "aa" "bb").db.posts.map Post.cause
      = dbWithPost.posts.map Post.cause :=
  (c10_cause_empty_invariant dbWithPost [] (by decide)).2.2 sampleAdmin 1
    ⟨sampleForm, none⟩ "aa" "bb"

end WasteWalk
